import Mathlib

set_option maxRecDepth 1000000

/-! Shallow embedding of the ledger engine of `src/app.py` (class `Block`,
class `Blockchain`, and the customer-summary view built on
`get_product_journey`), together with the points where the variant
implementation in the second source file differs (its `Block.compute_hash`
serializes with Python's default separators instead of compact ones).

The persisted file is modelled at the level of the parsed JSON document: a
list of field-name-keyed objects, exactly what `json.dump`/`json.load`
round-trips through the file. -/

mutual

/-- JSON values as produced and consumed by the `json` module calls in the
source (`json.dumps`, `json.dump`, `json.load`).  Arrays and objects carry
their children through the mutual types `JsonList` and `JsonObj` (a
field-name-keyed entry list, Python dict). -/
inductive Json where
  | null : Json
  | bool : Bool → Json
  | num : Int → Json
  | str : String → Json
  | arr : JsonList → Json
  | obj : JsonObj → Json

inductive JsonList where
  | nil : JsonList
  | cons : Json → JsonList → JsonList

inductive JsonObj where
  | nil : JsonObj
  | cons : String → Json → JsonObj → JsonObj

end

/-- The entries of a JSON array as a Lean list. -/
def JsonList.toList : JsonList → List Json
  | .nil => []
  | .cons j rest => j :: rest.toList

/-- The entries of a JSON object as a Lean association list, in insertion
order. -/
def JsonObj.toList : JsonObj → List (String × Json)
  | .nil => []
  | .cons k v rest => (k, v) :: rest.toList

/-- Build a JSON object from an association list (a Python dict literal, in
insertion order). -/
def JsonObj.ofList : List (String × Json) → JsonObj
  | [] => .nil
  | (k, v) :: rest => .cons k v (JsonObj.ofList rest)

/-- A Python dict literal as a `Json` value. -/
def jObj (l : List (String × Json)) : Json := Json.obj (JsonObj.ofList l)

mutual

/-- Structural size of a JSON value, used as recursion fuel by the
serializer (it dominates the nesting depth). -/
def Json.size : Json → Nat
  | .arr xs => xs.size + 1
  | .obj kvs => kvs.size + 1
  | _ => 1

/-- Structural size of a JSON array's entries. -/
def JsonList.size : JsonList → Nat
  | .nil => 1
  | .cons j rest => j.size + rest.size + 1

/-- Structural size of a JSON object's entries. -/
def JsonObj.size : JsonObj → Nat
  | .nil => 1
  | .cons _ v rest => v.size + rest.size + 1

end

/-- The modulus 2^32 of all 32-bit arithmetic inside SHA-256. -/
def M32 : Nat := 4294967296

/-- Lower-case hexadecimal digit, as used by Python's hexdigest and \uXXXX
escapes. -/
def hexDigitChar (n : Nat) : Char :=
  if n < 10 then Char.ofNat (48 + n) else Char.ofNat (87 + n)

/-- Four lower-case hex digits of a value below 2^16 (most significant
first). -/
def hex4 (n : Nat) : String :=
  String.mk [hexDigitChar (n / 4096 % 16), hexDigitChar (n / 256 % 16),
             hexDigitChar (n / 16 % 16), hexDigitChar (n % 16)]

/-- Escape one character the way CPython's `json.dumps` does with its default
`ensure_ascii=True`: the two-character escapes for quote, backslash and the
common control characters, printable ASCII kept verbatim, everything else as
\uXXXX (with surrogate pairs beyond the BMP). -/
def jsonEscapeChar (c : Char) : String :=
  let n := c.toNat
  if c = '\"' then "\\\""
  else if c = '\\' then "\\\\"
  else if n = 10 then "\\n"
  else if n = 13 then "\\r"
  else if n = 9 then "\\t"
  else if n = 8 then "\\b"
  else if n = 12 then "\\f"
  else if 32 ≤ n ∧ n ≤ 126 then String.mk [c]
  else if n < 65536 then "\\u" ++ hex4 n
  else
    "\\u" ++ hex4 (55296 + (n - 65536) / 1024) ++ "\\u" ++ hex4 (56320 + (n - 65536) % 1024)

/-- A JSON string literal: quotes around the escaped characters. -/
def jsonQuote (s : String) : String :=
  "\"" ++ String.join (s.data.map jsonEscapeChar) ++ "\""

/-- Lexicographic code-point comparison of character lists: Python's `<` on
strings. -/
def charListLt : List Char → List Char → Bool
  | [], [] => false
  | [], _ :: _ => true
  | _ :: _, [] => false
  | c :: cs, d :: ds =>
      if c.toNat < d.toNat then true
      else if d.toNat < c.toNat then false
      else charListLt cs ds

/-- Python's `<` on strings (code-point lexicographic order). -/
def strLt (a b : String) : Bool := charListLt a.data b.data

/-- Insert one key-value pair into a key-sorted association list, keeping
equal keys stable (the behaviour of Python's stable sort). -/
def insertKV (kv : String × Json) : List (String × Json) → List (String × Json)
  | [] => [kv]
  | kv' :: rest => if strLt kv'.1 kv.1 then kv' :: insertKV kv rest else kv :: kv' :: rest

/-- Sort an association list by key, as `json.dumps(..., sort_keys=True)`
does before serializing an object. -/
def sortKVs : List (String × Json) → List (String × Json)
  | [] => []
  | kv :: rest => insertKV kv (sortKVs rest)

/-- Serialize a JSON value with the given item and key separators, sorted
keys, fuel-bounded recursion (the fuel passed at the top is `Json.size`,
always at least the nesting depth, so the zero-fuel branch is
unreachable). -/
def dumpFuel (isep ksep : String) : Nat → Json → String
  | 0, _ => ""
  | _, .null => "null"
  | _, .bool true => "true"
  | _, .bool false => "false"
  | _, .num n => toString n
  | _, .str s => jsonQuote s
  | fuel+1, .arr xs =>
      "[" ++ String.intercalate isep (xs.toList.map (dumpFuel isep ksep fuel)) ++ "]"
  | fuel+1, .obj kvs =>
      "\x7b" ++ String.intercalate isep
        ((sortKVs kvs.toList).map (fun kv => jsonQuote kv.1 ++ ksep ++ dumpFuel isep ksep fuel kv.2))
        ++ "\x7d"

/-- The source's `json.dumps(content, sort_keys=True, separators=(',', ':'))` — the
serialization used by `Block.compute_hash` in src/app.py. -/
def Json.dumpsCompact (j : Json) : String := dumpFuel "," ":" j.size j

/-- The source's `json.dumps(content, sort_keys=True)` with the default separators
(', ', ': ') — the serialization used by `Block.compute_hash` in the second
source variant. -/
def Json.dumpsDefault (j : Json) : String := dumpFuel ", " ": " j.size j

/-- UTF-8 encoding of one character (`str.encode()`). -/
def utf8Char (c : Char) : List Nat :=
  let n := c.toNat
  if n < 128 then [n]
  else if n < 2048 then [192 + n / 64, 128 + n % 64]
  else if n < 65536 then [224 + n / 4096, 128 + n / 64 % 64, 128 + n % 64]
  else [240 + n / 262144, 128 + n / 4096 % 64, 128 + n / 64 % 64, 128 + n % 64]

/-- UTF-8 encoding of a string (`str.encode()`), as a byte list. -/
def utf8Bytes (s : String) : List Nat := (s.data.map utf8Char).flatten

/-- Rotate a 32-bit value right by n bit positions. -/
def ror32 (x n : Nat) : Nat := ((x >>> n) ||| (x <<< (32 - n))) % M32

/-- The eight 32-bit working variables of SHA-256. -/
structure Sha256State where
  a : Nat
  b : Nat
  c : Nat
  d : Nat
  e : Nat
  f : Nat
  g : Nat
  h : Nat
deriving DecidableEq

/-- SHA-256 initial hash value (FIPS 180-4). -/
def sha256IV : Sha256State :=
  ⟨1779033703, 3144134277, 1013904242,
   2773480762, 1359893119, 2600822924,
   528734635, 1541459225⟩

/-- SHA-256 round constants (FIPS 180-4). -/
def sha256K : List Nat :=
  [1116352408, 1899447441, 3049323471, 3921009573, 961987163,
   1508970993, 2453635748, 2870763221, 3624381080, 310598401,
   607225278, 1426881987, 1925078388, 2162078206, 2614888103,
   3248222580, 3835390401, 4022224774, 264347078, 604807628,
   770255983, 1249150122, 1555081692, 1996064986, 2554220882,
   2821834349, 2952996808, 3210313671, 3336571891, 3584528711,
   113926993, 338241895, 666307205, 773529912, 1294757372,
   1396182291, 1695183700, 1986661051, 2177026350, 2456956037,
   2730485921, 2820302411, 3259730800, 3345764771, 3516065817,
   3600352804, 4094571909, 275423344, 430227734, 506948616,
   659060556, 883997877, 958139571, 1322822218, 1537002063,
   1747873779, 1955562222, 2024104815, 2227730452, 2361852424,
   2428436474, 2756734187, 3204031479, 3329325298]

/-- Message-schedule sigma-0. -/
def sSig0 (x : Nat) : Nat := (ror32 x 7) ^^^ (ror32 x 18) ^^^ (x >>> 3)

/-- Message-schedule sigma-1. -/
def sSig1 (x : Nat) : Nat := (ror32 x 17) ^^^ (ror32 x 19) ^^^ (x >>> 10)

/-- One message-schedule extension step, on the reversed word list
(head = most recent word). -/
def scheduleStep (wsRev : List Nat) : Nat :=
  (sSig1 (wsRev.getD 1 0) + wsRev.getD 6 0 + sSig0 (wsRev.getD 14 0) + wsRev.getD 15 0) % M32

/-- Extend the reversed schedule by the given number of words. -/
def scheduleRec : Nat → List Nat → List Nat
  | 0, wsRev => wsRev
  | n+1, wsRev => scheduleRec n (scheduleStep wsRev :: wsRev)

/-- The 64-word message schedule from the 16 words of one block. -/
def fullSchedule (ws16 : List Nat) : List Nat := (scheduleRec 48 ws16.reverse).reverse

/-- Compression big-sigma-0. -/
def bSig0 (x : Nat) : Nat := (ror32 x 2) ^^^ (ror32 x 13) ^^^ (ror32 x 22)

/-- Compression big-sigma-1. -/
def bSig1 (x : Nat) : Nat := (ror32 x 6) ^^^ (ror32 x 11) ^^^ (ror32 x 25)

/-- One SHA-256 compression round; the pair carries (round constant, schedule
word). -/
def compressStep (st : Sha256State) (kw : Nat × Nat) : Sha256State :=
  let ch := (st.e &&& st.f) ^^^ ((st.e ^^^ 4294967295) &&& st.g)
  let t1 := (st.h + bSig1 st.e + ch + kw.1 + kw.2) % M32
  let mj := (st.a &&& st.b) ^^^ (st.a &&& st.c) ^^^ (st.b &&& st.c)
  let t2 := (bSig0 st.a + mj) % M32
  ⟨(t1 + t2) % M32, st.a, st.b, st.c, (st.d + t1) % M32, st.e, st.f, st.g⟩

/-- Compress one 16-word block into the running state. -/
def compressBlock (st : Sha256State) (ws16 : List Nat) : Sha256State :=
  let r := (sha256K.zip (fullSchedule ws16)).foldl compressStep st
  ⟨(st.a + r.a) % M32, (st.b + r.b) % M32, (st.c + r.c) % M32, (st.d + r.d) % M32,
   (st.e + r.e) % M32, (st.f + r.f) % M32, (st.g + r.g) % M32, (st.h + r.h) % M32⟩

/-- The given number of big-endian bytes of a natural number. -/
def beBytes : Nat → Nat → List Nat
  | 0, _ => []
  | k+1, n => beBytes k (n / 256) ++ [n % 256]

/-- SHA-256 padding: 0x80, zeros to 56 mod 64, then the 64-bit big-endian bit
length. -/
def sha256Pad (msg : List Nat) : List Nat :=
  msg ++ [128] ++ List.replicate ((119 - msg.length % 64) % 64) 0 ++ beBytes 8 (msg.length * 8)

/-- Big-endian 32-bit words from a byte list. -/
def word32s : List Nat → List Nat
  | b0 :: b1 :: b2 :: b3 :: rest => (((b0 * 256 + b1) * 256 + b2) * 256 + b3) :: word32s rest
  | _ => []

/-- Split a byte list into 64-byte chunks (fuel-bounded; fuel is the length,
far more than the chunk count). -/
def chunk64 : Nat → List Nat → List (List Nat)
  | 0, _ => []
  | _, [] => []
  | fuel+1, l => l.take 64 :: chunk64 fuel (l.drop 64)

/-- SHA-256 of a byte list, as the final eight-word state. -/
def sha256Words (msg : List Nat) : Sha256State :=
  let padded := sha256Pad msg
  (chunk64 padded.length padded).foldl (fun st ch => compressBlock st (word32s ch)) sha256IV

/-- Eight lower-case hex digits of a 32-bit word. -/
def hex8 (w : Nat) : String := hex4 (w / 65536 % 65536) ++ hex4 (w % 65536)

/-- The source's `hashlib.sha256(bytes).hexdigest()`: the 64-character lower-case hex
digest. -/
def sha256hex (msg : List Nat) : String :=
  hex8 (sha256Words msg).a ++ hex8 (sha256Words msg).b ++ hex8 (sha256Words msg).c ++
  hex8 (sha256Words msg).d ++ hex8 (sha256Words msg).e ++ hex8 (sha256Words msg).f ++
  hex8 (sha256Words msg).g ++ hex8 (sha256Words msg).h

/-- One ledger record, mirroring class `Block` of src/app.py: the ten content
fields plus the stored linkage hash.  `index` is kept as `Nat`: every index
the application writes is non-negative (`previous.index + 1` from a genesis
index of 0). -/
structure Block where
  index : Nat
  timestamp : String
  product_id : String
  actor_role : String
  actor_name : String
  location : String
  status : String
  payment_method : String
  details : Json
  previous_hash : String
  hash : String

/-- The `block_content` dict built by `Block.compute_hash`: the ten content
fields (everything except `hash`), in the source's insertion order; the
serializer sorts the keys. -/
def Block.contentJson (b : Block) : Json :=
  jObj [("index", .num b.index), ("timestamp", .str b.timestamp),
        ("product_id", .str b.product_id), ("actor_role", .str b.actor_role),
        ("actor_name", .str b.actor_name), ("location", .str b.location),
        ("status", .str b.status), ("payment_method", .str b.payment_method),
        ("details", b.details), ("previous_hash", .str b.previous_hash)]

/-- The source's `Block.compute_hash` of src/app.py: sha256 over the canonical compact
sorted-key serialization of the content fields. -/
def Block.compute_hash (b : Block) : String :=
  sha256hex (utf8Bytes b.contentJson.dumpsCompact)

/-- The source's `Block.compute_hash` of the second source variant: identical content
dict, but serialized with `json.dumps(..., sort_keys=True)` and its default
separators `(', ', ': ')`. -/
def Block.compute_hash_v2 (b : Block) : String :=
  sha256hex (utf8Bytes b.contentJson.dumpsDefault)

/-- The source's `details if details is not None else {}` in `Block.__init__`. -/
def normDetails (details : Json) : Json :=
  match details with
  | .null => jObj []
  | d => d

/-- The source's `Block.__init__`: stores the fields (normalizing a `None` `details` to an
empty dict) and computes the hash on creation. -/
def Block.init (index : Nat) (timestamp product_id actor_role actor_name location
    status payment_method : String) (details : Json) (previous_hash : String) : Block :=
  let b : Block := ⟨index, timestamp, product_id, actor_role, actor_name, location,
                    status, payment_method, normDetails details, previous_hash, ""⟩
  { b with hash := b.compute_hash }

/-- The source's `Block.to_dict`: the persisted representation of a record, all eleven
fields keyed by name, in the source's insertion order. -/
def Block.to_dict (b : Block) : List (String × Json) :=
  [("index", .num b.index), ("timestamp", .str b.timestamp),
   ("product_id", .str b.product_id), ("actor_role", .str b.actor_role),
   ("actor_name", .str b.actor_name), ("location", .str b.location),
   ("status", .str b.status), ("payment_method", .str b.payment_method),
   ("details", b.details), ("previous_hash", .str b.previous_hash),
   ("hash", .str b.hash)]

/-- The source's `Blockchain.create_genesis_block` builds this block (the second
`genesis.hash = genesis.compute_hash()` assignment in the source is a no-op:
the constructor already computed it). -/
def create_genesis_block (now : String) : Block :=
  Block.init 0 now "GENESIS" "Network" "Genesis" "N/A" "Genesis Block" "N/A"
    (jObj [("note", Json.str "Initial genesis block")]) "0"

/-- The source's `Blockchain.add_block` of src/app.py, as a function of the current chain:
reads the last record (`self.chain[-1]` raises IndexError on an empty chain,
modelled as `none`), builds the new block from the previous block's index and
hash, and appends it.  The source's explicit `new_block.hash =
new_block.compute_hash()` is a no-op after the constructor. -/
def add_block (chain : List Block) (product_id actor_role actor_name location status
    payment_method : String) (details : Json) (now : String) :
    Option (Block × List Block) :=
  match chain.getLast? with
  | none => none
  | some previous =>
      let new_block := Block.init (previous.index + 1) now product_id actor_role
        actor_name location status payment_method details previous.hash
      some (new_block, chain ++ [new_block])

/-- The source's `Blockchain.add_block` of the second source variant: identical except the
new index is `len(self.chain)`. -/
def add_block_v2 (chain : List Block) (product_id actor_role actor_name location status
    payment_method : String) (details : Json) (now : String) :
    Option (Block × List Block) :=
  match chain.getLast? with
  | none => none
  | some previous =>
      let block := Block.init chain.length now product_id actor_role
        actor_name location status payment_method details previous.hash
      some (block, chain ++ [block])

/-- The loop body of `Blockchain.is_chain_valid`: walk the chain from
position `i`, carrying the previous block, returning at the first broken
link or hash mismatch. -/
def chainCheck : Block → List Block → Nat → Bool × String
  | _, [], _ => (true, "Chain is valid")
  | previous, current :: rest, i =>
      if current.previous_hash ≠ previous.hash then
        (false, "Broken link: block " ++ toString (i-1) ++ " -> " ++ toString i)
      else if current.hash ≠ current.compute_hash then
        (false, "Hash mismatch at block " ++ toString i)
      else chainCheck current rest (i+1)

/-- The source's `Blockchain.is_chain_valid`: `(valid, message)` from walking positions
1 .. len-1. -/
def is_chain_valid (chain : List Block) : Bool × String :=
  match chain with
  | [] => (true, "Chain is valid")
  | b :: rest => chainCheck b rest 1

/-- The same walk as `chainCheck`, returning the position of the first
violation instead of the message (used to state "at or before position i"
claims; its agreement with `is_chain_valid` is proved below). -/
def violationIdx : Block → List Block → Nat → Option Nat
  | _, [], _ => none
  | previous, current :: rest, i =>
      if current.previous_hash ≠ previous.hash then some i
      else if current.hash ≠ current.compute_hash then some i
      else violationIdx current rest (i+1)

/-- Position of the first violation `is_chain_valid` reports, if any. -/
def first_violation (chain : List Block) : Option Nat :=
  match chain with
  | [] => none
  | b :: rest => violationIdx b rest 1

/-- The source's `Blockchain.get_product_journey`: the `to_dict` of every block whose
`product_id` equals the argument, in chain order. -/
def get_product_journey (chain : List Block) (product_id : String) :
    List (List (String × Json)) :=
  (chain.filter (fun b => b.product_id == product_id)).map Block.to_dict

/-- The source's `Blockchain.save_to_file`: the persisted document is the JSON array of
every block's `to_dict` (the file is modelled at the level of the parsed
JSON document `json.dump` writes and `json.load` reads back). -/
def save_to_file (chain : List Block) : List (List (String × Json)) :=
  chain.map Block.to_dict

/-- First value stored under a key of a persisted record object
(dict lookup; keys written by the application are unique). -/
def entryGet (e : List (String × Json)) (k : String) : Option Json :=
  match e with
  | [] => none
  | (k', v) :: rest => if k' = k then some v else entryGet rest k

/-- The source's `item.get(k, default)` where the code uses the value as an int.  Every
value the application persists under such a key is a non-negative int. -/
def getNatD (e : List (String × Json)) (k : String) (d : Nat) : Nat :=
  match entryGet e k with
  | some (.num n) => n.toNat
  | _ => d

/-- The source's `item.get(k, default)` where the code uses the value as a string. -/
def getStrD (e : List (String × Json)) (k : String) (d : String) : String :=
  match entryGet e k with
  | some (.str s) => s
  | _ => d

/-- The source's `item.get(k, default)` keeping the stored JSON value as-is. -/
def getJsonD (e : List (String × Json)) (k : String) (d : Json) : Json :=
  (entryGet e k).getD d

/-- Loading one persisted record in `Blockchain.load_from_file`: read every
field with its safe default (`timestamp` defaults to the current time,
passed in as `now`), rebuild the block (which computes its hash), then
preserve a truthy stored hash verbatim; a missing or empty stored hash
leaves the freshly computed one. -/
def loadBlock (item : List (String × Json)) (now : String) : Block :=
  let b := Block.init (getNatD item "index" 0) (getStrD item "timestamp" now)
      (getStrD item "product_id" "") (getStrD item "actor_role" "")
      (getStrD item "actor_name" "") (getStrD item "location" "")
      (getStrD item "status" "") (getStrD item "payment_method" "")
      (getJsonD item "details" (jObj [])) (getStrD item "previous_hash" "0")
  match entryGet item "hash" with
  | some (.str h) => if h = "" then b else { b with hash := h }
  | _ => b

/-- The source's `Blockchain.load_from_file` over the parsed persisted document. -/
def load_from_file (data : List (List (String × Json))) (now : String) : List Block :=
  data.map (loadBlock · now)

/-- What `Blockchain.__init__` surfaces to its caller, beyond the chain it
builds: whether a storage error propagated, and whether a warning about
corruption was surfaced.  The source raises nothing out of `__init__` and
calls no warning facility there, so both flags are false on every path. -/
structure InitOutcome where
  chain : List Block
  surfacedError : Bool
  surfacedWarning : Bool

/-- The source's `Blockchain.__init__` of src/app.py.  The argument models the durable
medium: `none` = no file; `some none` = a file exists but reading or parsing
it raises (unreadable/malformed); `some (some data)` = a readable file
parsing to `data`.  On the malformed path the source catches the exception
and silently starts a fresh genesis chain. -/
def blockchainInit (file : Option (Option (List (List (String × Json)))))
    (now : String) : InitOutcome :=
  match file with
  | none => ⟨[create_genesis_block now], false, false⟩
  | some none => ⟨[create_genesis_block now], false, false⟩
  | some (some data) => ⟨load_from_file data now, false, false⟩

/-- In-memory chain plus the persisted document, for the append/persist
interaction. -/
structure StoreState where
  chain : List Block
  persisted : List (List (String × Json))

/-- The error `save_to_file` raises when the write fails
(`IOError(f"Failed to save chain to ...")`). -/
def saveFailMsg : String := "Failed to save chain"

/-- The source's `Blockchain.add_block` together with its call to `save_to_file`, with the
success of the durable write injected as `saveOk`: the block is appended to
the in-memory chain first; only then is the whole chain saved, and a failing
save raises after the in-memory append (there is no rollback in the
source). -/
def add_block_run (st : StoreState) (product_id actor_role actor_name location status
    payment_method : String) (details : Json) (now : String) (saveOk : Bool) :
    Except String Block × StoreState :=
  match st.chain.getLast? with
  | none => (Except.error "IndexError", st)
  | some previous =>
      let new_block := Block.init (previous.index + 1) now product_id actor_role
        actor_name location status payment_method details previous.hash
      let chain' := st.chain ++ [new_block]
      if saveOk then (Except.ok new_block, ⟨chain', save_to_file chain'⟩)
      else (Except.error saveFailMsg, ⟨chain', st.persisted⟩)

/-- The lookup `.get(k, default)` on a JSON value the code treats as a dict (`details`
is always a dict wherever the summary view reads it). -/
def Json.getD (j : Json) (k : String) (d : Json) : Json :=
  match j with
  | .obj kvs => (entryGet kvs.toList k).getD d
  | _ => d

/-- The fields the "Customer Summary" view renders: origin-fixed values from
the first record of the journey, current-state values from the last. -/
structure CustomerSummary where
  product_id : String
  product_name : Json
  origin : Json
  final_location : Json
  delivery_status : Json
  final_payment : Json
  customer_details : Json

/-- The customer-summary view of src/app.py: over `get_product_journey`, no
records means no summary (a warning card, not an error); otherwise
`first = journey[0]` and `final = journey[-1]` by list position, and every
rendered field is a `.get` with a default. -/
def customer_summary (chain : List Block) (pid : String) : Option CustomerSummary :=
  let journey := get_product_journey chain pid
  match journey.head?, journey.getLast? with
  | some first, some final =>
      some { product_id := pid
             product_name := Json.getD (getJsonD first "details" (jObj []))
               "product_name" (.str "Unknown")
             origin := getJsonD first "location" (.str "Unknown")
             final_location := getJsonD final "location" (.str "Unknown")
             delivery_status := getJsonD final "status" (.str "Unknown")
             final_payment := getJsonD final "payment_method" (.str "Unknown")
             customer_details := getJsonD final "details" (jObj []) }
  | _, _ => none

/-- Replace the value stored under one field of a persisted record object
(the tampering primitive of P5: a single-field mutation in the persisted
representation). -/
def setField (e : List (String × Json)) (k : String) (v : Json) :
    List (String × Json) :=
  e.map (fun kv => if kv.1 = k then (kv.1, v) else kv)

/-- Mutate one field of the record at position `i` of a persisted
document. -/
def tamperAt (data : List (List (String × Json))) (i : Nat) (k : String) (v : Json) :
    List (List (String × Json)) :=
  data.set i (setField (data.getD i []) k v)

/-- The ledgers reachable purely through `append`: a fresh genesis chain,
extended only by successful `add_block` calls. -/
inductive Built : List Block → Prop
  | genesis (now : String) : Built [create_genesis_block now]
  | append (c : List Block) (product_id actor_role actor_name location status
      payment_method : String) (details : Json) (now : String) (b : Block)
      (c' : List Block) : Built c →
      add_block c product_id actor_role actor_name location status payment_method
        details now = some (b, c') →
      Built c'

/-- A fixed genesis block (concrete timestamps stand in for `_now()`). -/
def g0 : Block := create_genesis_block "2024-01-01 00:00:00"

/-- The details dict the Farmer creation form submits. -/
def prdDetails : Json := jObj [("product_name", Json.str "Mango")]

/-- The block `add_block` appends to `[g0]` for the Farmer creation call. -/
def b1 : Block :=
  Block.init 1 "2024-01-01 00:00:01" "PRD-1" "Farmer" "Farmer A" "Amritsar, Punjab"
    "Created" "COD" prdDetails g0.hash

/-- A two-record ledger reached purely through `append`. -/
def chain2 : List Block := [g0, b1]

/-! ### Basic facts about the embedded definitions -/

theorem normDetails_ne_null (d : Json) : normDetails d ≠ Json.null := by
  cases d <;> simp [normDetails, jObj, JsonObj.ofList]

theorem compute_hash_set_hash (b : Block) (x : String) :
    Block.compute_hash { b with hash := x } = b.compute_hash := rfl

/-- The constructor `Block.init` written out as a structure literal. -/
theorem Block.init_eq (i : Nat) (t p ar an l s pm : String) (d : Json) (ph : String) :
    Block.init i t p ar an l s pm d ph =
      ⟨i, t, p, ar, an, l, s, pm, normDetails d, ph,
       Block.compute_hash ⟨i, t, p, ar, an, l, s, pm, normDetails d, ph, ""⟩⟩ := rfl

theorem Block.init_hash (i : Nat) (t p ar an l s pm : String) (d : Json) (ph : String) :
    (Block.init i t p ar an l s pm d ph).hash =
      (Block.init i t p ar an l s pm d ph).compute_hash := rfl

theorem hex4_length (n : Nat) : (hex4 n).length = 4 := rfl

theorem hex8_length (w : Nat) : (hex8 w).length = 8 := by
  simp [hex8, String.length_append, hex4_length]

theorem sha256hex_length (m : List Nat) : (sha256hex m).length = 64 := by
  simp [sha256hex, String.length_append, hex8_length]

theorem sha256hex_ne_empty (m : List Nat) : sha256hex m ≠ "" := by
  intro h
  have := congrArg String.length h
  rw [sha256hex_length] at this
  simp [String.length] at this

theorem Block.init_hash_ne_empty (i : Nat) (t p ar an l s pm : String) (d : Json)
    (ph : String) : (Block.init i t p ar an l s pm d ph).hash ≠ "" := by
  rw [Block.init_hash]
  exact sha256hex_ne_empty _

/-! ### Agreement of `is_chain_valid` with the violation-position walk -/

theorem chainCheck_eq_none (l : List Block) : ∀ (prev : Block) (i : Nat),
    violationIdx prev l i = none ↔ chainCheck prev l i = (true, "Chain is valid") := by
  induction l with
  | nil => intro prev i; simp [violationIdx, chainCheck]
  | cons cur rest ih =>
      intro prev i
      by_cases h1 : cur.previous_hash = prev.hash
      · by_cases h2 : cur.hash = cur.compute_hash
        · simp [violationIdx, chainCheck, h1, h2, ih]
        · simp [violationIdx, chainCheck, h1, h2]
      · simp [violationIdx, chainCheck, h1]

theorem chainCheck_false_of_some (l : List Block) : ∀ (prev : Block) (i j : Nat),
    violationIdx prev l i = some j → (chainCheck prev l i).1 = false := by
  induction l with
  | nil => intro prev i j h; simp [violationIdx] at h
  | cons cur rest ih =>
      intro prev i j h
      by_cases h1 : cur.previous_hash = prev.hash
      · by_cases h2 : cur.hash = cur.compute_hash
        · simp [violationIdx, h1, h2] at h
          simp [chainCheck, h1, h2]
          exact ih cur (i+1) j h
        · simp [chainCheck, h1, h2]
      · simp [chainCheck, h1]

theorem first_violation_none_iff (c : List Block) :
    first_violation c = none ↔ is_chain_valid c = (true, "Chain is valid") := by
  cases c with
  | nil => simp [first_violation, is_chain_valid]
  | cons b rest => simpa [first_violation, is_chain_valid] using chainCheck_eq_none rest b 1

theorem is_chain_valid_false_of_violation (c : List Block) (j : Nat)
    (h : first_violation c = some j) : (is_chain_valid c).1 = false := by
  cases c with
  | nil => simp [first_violation] at h
  | cons b rest => exact chainCheck_false_of_some rest b 1 j h

/-! ### The chain invariant carried by ledgers built through `append` -/

/-- Pairwise chain invariant along the walk: each block links to its
predecessor and stores its own canonical digest. -/
def linkedFrom : Block → List Block → Prop
  | _, [] => True
  | previous, current :: rest =>
      current.previous_hash = previous.hash ∧ current.hash = current.compute_hash ∧
      linkedFrom current rest

theorem linkedFrom_append (l : List Block) : ∀ (p q pl : Block),
    linkedFrom p l → (p :: l).getLast? = some pl →
    q.previous_hash = pl.hash → q.hash = q.compute_hash →
    linkedFrom p (l ++ [q]) := by
  induction l with
  | nil =>
      intro p q pl _ hlast h1 h2
      simp at hlast
      subst hlast
      exact ⟨h1, h2, trivial⟩
  | cons x xs ih =>
      intro p q pl hl hlast h1 h2
      obtain ⟨hx1, hx2, hl'⟩ := hl
      rw [List.getLast?_cons_cons] at hlast
      exact ⟨hx1, hx2, ih x q pl hl' hlast h1 h2⟩

/-- The three per-block facts `Block.__init__` guarantees. -/
theorem init_block_ok (i : Nat) (t p ar an l s pm : String) (d : Json) (ph : String) :
    (Block.init i t p ar an l s pm d ph).hash ≠ "" ∧
    (Block.init i t p ar an l s pm d ph).details ≠ Json.null ∧
    (Block.init i t p ar an l s pm d ph).hash =
      (Block.init i t p ar an l s pm d ph).compute_hash :=
  ⟨Block.init_hash_ne_empty i t p ar an l s pm d ph,
   show normDetails d ≠ Json.null from normDetails_ne_null d,
   Block.init_hash i t p ar an l s pm d ph⟩

/-- Every ledger reachable through `append` is non-empty, satisfies the
pairwise invariant, and each of its blocks has a non-empty stored hash equal
to its canonical digest and non-`null` details. -/
theorem built_shape (c : List Block) (hc : Built c) :
    ∃ b0 rest, c = b0 :: rest ∧ linkedFrom b0 rest ∧
      ∀ b ∈ c, b.hash ≠ "" ∧ b.details ≠ Json.null ∧ b.hash = b.compute_hash := by
  induction hc with
  | genesis now =>
      refine ⟨create_genesis_block now, [], rfl, trivial, ?_⟩
      intro b hb
      simp only [List.mem_singleton] at hb
      subst hb
      simp only [create_genesis_block]
      exact init_block_ok _ _ _ _ _ _ _ _ _ _
  | append c pid ar an loc st pm d now b c' _ heq ih =>
      obtain ⟨b0, rest, hcs, hlink, hmem⟩ := ih
      cases hlast : c.getLast? with
      | none => simp [add_block, hlast] at heq
      | some prev =>
          simp only [add_block, hlast, Option.some.injEq, Prod.mk.injEq] at heq
          obtain ⟨-, hc'⟩ := heq
          subst hc'
          subst hcs
          refine ⟨b0, _, rfl, ?_, ?_⟩
          · exact linkedFrom_append rest b0 _ prev hlink hlast rfl
              (Block.init_hash _ _ _ _ _ _ _ _ _ _)
          · intro x hx
            rcases List.mem_cons.mp hx with hx' | hx'
            · subst hx'
              exact hmem _ (List.mem_cons_self _ _)
            · rcases List.mem_append.mp hx' with hx2 | hx2
              · exact hmem _ (List.mem_cons_of_mem _ hx2)
              · simp only [List.mem_singleton] at hx2
                subst hx2
                exact init_block_ok _ _ _ _ _ _ _ _ _ _

theorem linked_chainCheck (l : List Block) : ∀ (prev : Block) (i : Nat),
    linkedFrom prev l → chainCheck prev l i = (true, "Chain is valid") := by
  induction l with
  | nil => intro prev i _; rfl
  | cons x xs ih =>
      intro prev i hl
      obtain ⟨h1, h2, hl'⟩ := hl
      simp [chainCheck, h1, h2, ih x (i+1) hl']

/-- The verifier `is_chain_valid` reports success on every ledger built through
`append`. -/
theorem built_is_valid (c : List Block) (hc : Built c) :
    is_chain_valid c = (true, "Chain is valid") := by
  obtain ⟨b0, rest, rfl, hlink, -⟩ := built_shape c hc
  simpa [is_chain_valid] using linked_chainCheck rest b0 1 hlink

theorem chain_pairs (rest : List Block) : ∀ (b0 : Block), linkedFrom b0 rest →
    ∀ i, 0 < i → ∀ (hi : i < (b0 :: rest).length),
      ((b0 :: rest).get ⟨i, hi⟩).previous_hash =
        ((b0 :: rest).get ⟨i - 1, by omega⟩).hash ∧
      ((b0 :: rest).get ⟨i, hi⟩).hash = ((b0 :: rest).get ⟨i, hi⟩).compute_hash := by
  induction rest with
  | nil =>
      intro b0 _ i h0 hi
      simp at hi
      omega
  | cons x xs ih =>
      intro b0 hl i h0 hi
      obtain ⟨h1, h2, hl'⟩ := hl
      obtain ⟨j, rfl⟩ : ∃ k, i = k + 1 := ⟨i - 1, by omega⟩
      cases j with
      | zero => simpa using ⟨h1, h2⟩
      | succ m =>
          have hi' : m + 1 < (x :: xs).length := by simpa using hi
          have key := ih x hl' (m + 1) (Nat.succ_pos _) hi'
          simpa using key

/-- The concrete ledger `chain2` is reachable purely through `append`. -/
theorem built_chain2 : Built chain2 :=
  Built.append [g0] "PRD-1" "Farmer" "Farmer A" "Amritsar, Punjab" "Created" "COD"
    prdDetails "2024-01-01 00:00:01" b1 chain2
    (Built.genesis "2024-01-01 00:00:00") rfl

/-- C1: for every ledger built purely through `append` (starting from the
genesis record), every record at position i > 0 satisfies both chain
invariants: its `previous_hash` equals the `hash` of the record at position
i-1, and its `hash` equals the canonical digest of its own content fields
(everything except the hash itself). -/
theorem C1_chain_linkage (c : List Block) (hc : Built c) (i : Nat) (h0 : 0 < i)
    (hi : i < c.length) :
    (c.get ⟨i, hi⟩).previous_hash = (c.get ⟨i - 1, by omega⟩).hash ∧
    (c.get ⟨i, hi⟩).hash = (c.get ⟨i, hi⟩).compute_hash := by
  obtain ⟨b0, rest, rfl, hlink, -⟩ := built_shape c hc
  exact chain_pairs rest b0 hlink i h0 hi

/-- Witness for C1 at the two-record ledger `chain2` and position 1. -/
theorem C1_witness :
    Built chain2 ∧ 0 < 1 ∧ 1 < chain2.length ∧
    ((chain2.get ⟨1, by decide⟩).previous_hash = (chain2.get ⟨0, by decide⟩).hash ∧
     (chain2.get ⟨1, by decide⟩).hash = (chain2.get ⟨1, by decide⟩).compute_hash) :=
  ⟨built_chain2, Nat.one_pos, by decide,
   C1_chain_linkage chain2 built_chain2 1 Nat.one_pos (by decide)⟩

/-- C2 counterexample: on a failing save, `add_block` reports the storage
error, yet the in-memory sequence is neither rolled back (it gained a block)
nor consistent with what was persisted (the file still holds the old
one-record chain). -/
theorem C2_counterexample :
    (add_block_run ⟨[g0], save_to_file [g0]⟩ "PRD-1" "Farmer" "Farmer A"
        "Amritsar, Punjab" "Created" "COD" prdDetails "2024-01-01 00:00:01" false).1 =
      Except.error saveFailMsg ∧
    (add_block_run ⟨[g0], save_to_file [g0]⟩ "PRD-1" "Farmer" "Farmer A"
        "Amritsar, Punjab" "Created" "COD" prdDetails "2024-01-01 00:00:01" false).2.chain ≠
      [g0] ∧
    (add_block_run ⟨[g0], save_to_file [g0]⟩ "PRD-1" "Farmer" "Farmer A"
        "Amritsar, Punjab" "Created" "COD" prdDetails "2024-01-01 00:00:01" false).2.chain ≠
      load_from_file (add_block_run ⟨[g0], save_to_file [g0]⟩ "PRD-1" "Farmer" "Farmer A"
        "Amritsar, Punjab" "Created" "COD" prdDetails "2024-01-01 00:00:01" false).2.persisted
        "2024-01-01 00:00:02" := by
  refine ⟨rfl, fun h => ?_, fun h => ?_⟩
  · have hl := congrArg List.length h
    simp [add_block_run] at hl
  · have hl := congrArg List.length h
    simp [add_block_run, load_from_file, save_to_file] at hl

/-- C2 (amended): a failing save during `add_block` surfaces the storage
error but leaves the freshly built block appended in memory while the
persisted document is unchanged, so the in-memory sequence runs one record
ahead of durable storage; only a successful save commits both together. -/
theorem C2_append_then_save (chain : List Block) (previous : Block)
    (hlast : chain.getLast? = some previous)
    (persisted : List (List (String × Json)))
    (pid ar an loc st pm : String) (d : Json) (now : String) :
    add_block_run ⟨chain, persisted⟩ pid ar an loc st pm d now false =
      (Except.error saveFailMsg,
       ⟨chain ++ [Block.init (previous.index + 1) now pid ar an loc st pm d previous.hash],
        persisted⟩) ∧
    add_block_run ⟨chain, persisted⟩ pid ar an loc st pm d now true =
      (Except.ok (Block.init (previous.index + 1) now pid ar an loc st pm d previous.hash),
       ⟨chain ++ [Block.init (previous.index + 1) now pid ar an loc st pm d previous.hash],
        save_to_file
          (chain ++ [Block.init (previous.index + 1) now pid ar an loc st pm d previous.hash])⟩) := by
  constructor <;> simp [add_block_run, hlast]

/-- Witness for the amended C2 at the one-record ledger `[g0]`. -/
theorem C2_witness :
    ([g0].getLast? = some g0) ∧
    (add_block_run ⟨[g0], save_to_file [g0]⟩ "PRD-1" "Farmer" "Farmer A"
        "Amritsar, Punjab" "Created" "COD" prdDetails "2024-01-01 00:00:01" false).1 =
      Except.error saveFailMsg :=
  ⟨rfl, by
    rw [(C2_append_then_save [g0] g0 rfl (save_to_file [g0]) "PRD-1" "Farmer" "Farmer A"
      "Amritsar, Punjab" "Created" "COD" prdDetails "2024-01-01 00:00:01").1]⟩

/-- C3 counterexample: handed an existing but malformed durable file,
`__init__` reinitializes to a fresh genesis chain surfacing neither a
storage error nor a warning — the silent reinitialization the claim rules
out. -/
theorem C3_counterexample :
    blockchainInit (some none) "2024-01-01 00:00:00" =
      ⟨[create_genesis_block "2024-01-01 00:00:00"], false, false⟩ ∧
    ¬((blockchainInit (some none) "2024-01-01 00:00:00").surfacedError = true ∨
      (blockchainInit (some none) "2024-01-01 00:00:00").surfacedWarning = true) :=
  ⟨rfl, by simp [blockchainInit]⟩

/-- C3 (amended): when the durable representation exists but is unreadable
or malformed, `__init__` silently falls back to a fresh genesis chain — no
`StorageError` propagates and no warning is surfaced; the other two paths
(no file, readable file) likewise surface nothing. -/
theorem C3_silent_reinit (now : String) :
    blockchainInit (some none) now = ⟨[create_genesis_block now], false, false⟩ ∧
    blockchainInit none now = ⟨[create_genesis_block now], false, false⟩ ∧
    ∀ data, blockchainInit (some (some data)) now =
      ⟨load_from_file data now, false, false⟩ :=
  ⟨rfl, rfl, fun _ => rfl⟩

/-- C10: `add_block` performs no validation of its arguments: for every
argument tuple (including an empty product id or a role outside the known
enumeration) it constructs the record, appends it, and returns it — in both
implementation variants; it can only fail by persistence, never by
validation. -/
theorem C10_no_validation (chain : List Block) (previous : Block)
    (hlast : chain.getLast? = some previous)
    (pid ar an loc st pm : String) (d : Json) (now : String) :
    add_block chain pid ar an loc st pm d now =
      some (Block.init (previous.index + 1) now pid ar an loc st pm d previous.hash,
            chain ++ [Block.init (previous.index + 1) now pid ar an loc st pm d previous.hash]) ∧
    add_block_v2 chain pid ar an loc st pm d now =
      some (Block.init chain.length now pid ar an loc st pm d previous.hash,
            chain ++ [Block.init chain.length now pid ar an loc st pm d previous.hash]) := by
  constructor <;> simp [add_block, add_block_v2, hlast]

/-- Witness for C10: an empty product id and an unknown role are accepted
unchanged. -/
theorem C10_witness :
    ([g0].getLast? = some g0) ∧
    add_block [g0] "" "NotARole" "" "" "" "" Json.null "T" =
      some (Block.init (g0.index + 1) "T" "" "NotARole" "" "" "" "" Json.null g0.hash,
            [g0] ++ [Block.init (g0.index + 1) "T" "" "NotARole" "" "" "" "" Json.null g0.hash]) :=
  ⟨rfl, (C10_no_validation [g0] g0 rfl "" "NotARole" "" "" "" "" Json.null "T").1⟩

theorem normDetails_eq (d : Json) (hd : d ≠ Json.null) : normDetails d = d := by
  cases d <;> simp [normDetails] at *

/-- Loading back a saved record reproduces it exactly whenever its stored
hash is truthy (the loader then keeps it verbatim) and its details are not
`null` (the constructor would otherwise normalize them). -/
theorem loadBlock_to_dict (b : Block) (hh : b.hash ≠ "") (hd : b.details ≠ Json.null)
    (now : String) : loadBlock (Block.to_dict b) now = b := by
  obtain ⟨i, t, p, ar, an, l, s, pm, d, ph, h⟩ := b
  simp only [ne_eq] at hh hd
  simp [loadBlock, Block.to_dict, entryGet, getNatD, getStrD, getJsonD, hh,
    Block.init_eq, normDetails_eq d hd]

theorem load_save_id (c : List Block)
    (hok : ∀ b ∈ c, b.hash ≠ "" ∧ b.details ≠ Json.null) (now : String) :
    load_from_file (save_to_file c) now = c := by
  induction c with
  | nil => rfl
  | cons b rest ih =>
      have hb := hok b (List.mem_cons_self _ _)
      have ih' := ih fun x hx => hok x (List.mem_cons_of_mem _ hx)
      simp only [save_to_file, load_from_file, List.map_cons] at ih' ⊢
      rw [loadBlock_to_dict b hb.1 hb.2 now, ih']

/-- C6: for every ledger state reachable via `append`, saving and then
loading reproduces an identical sequence of records — every field value,
including `hash` and `previous_hash`, equal to its value before the
round-trip. -/
theorem C6_roundtrip (c : List Block) (hc : Built c) (now : String) :
    load_from_file (save_to_file c) now = c := by
  obtain ⟨b0, rest, rfl, -, hmem⟩ := built_shape c hc
  exact load_save_id _ (fun b hb => ⟨(hmem b hb).1, (hmem b hb).2.1⟩) now

/-- Witness for C6 at the two-record ledger `chain2`. -/
theorem C6_witness :
    Built chain2 ∧
    load_from_file (save_to_file chain2) "2024-01-02 00:00:00" = chain2 :=
  ⟨built_chain2, C6_roundtrip chain2 built_chain2 "2024-01-02 00:00:00"⟩

/-! ### Field lookups on persisted records -/

theorem to_dict_get_product_id (b : Block) :
    entryGet (Block.to_dict b) "product_id" = some (.str b.product_id) := rfl

theorem to_dict_get_location (b : Block) :
    entryGet (Block.to_dict b) "location" = some (.str b.location) := rfl

theorem to_dict_get_status (b : Block) :
    entryGet (Block.to_dict b) "status" = some (.str b.status) := rfl

theorem to_dict_get_payment (b : Block) :
    entryGet (Block.to_dict b) "payment_method" = some (.str b.payment_method) := rfl

theorem to_dict_get_details (b : Block) :
    entryGet (Block.to_dict b) "details" = some b.details := rfl

theorem to_dict_get_hash (b : Block) :
    entryGet (Block.to_dict b) "hash" = some (.str b.hash) := rfl

theorem getLast?_map' (g : α → β) (l : List α) : (l.map g).getLast? = (l.getLast?).map g := by
  induction l with
  | nil => rfl
  | cons x xs ih => cases xs <;> simp_all [List.getLast?_cons_cons]

theorem head?_map' (g : α → β) (l : List α) : (l.map g).head? = (l.head?).map g := by
  cases l <;> rfl

theorem filter_or_perm (c : List Block) (A B : String) (hAB : A ≠ B) :
    (c.filter (fun b => b.product_id == A || b.product_id == B)).Perm
      ((c.filter (fun b => b.product_id == A)) ++
        (c.filter (fun b => b.product_id == B))) := by
  induction c with
  | nil => simp
  | cons x xs ih =>
      by_cases hA : x.product_id = A
      · simpa [List.filter_cons, hA, hAB] using ih.cons x
      · by_cases hB : x.product_id = B
        · simp only [List.filter_cons, beq_iff_eq, hA, hB, if_true, if_false]
          simpa [hA, hB, Ne.symm hAB] using (ih.cons x).trans List.perm_middle.symm
        · simpa [List.filter_cons, hA, hB] using ih

/-- C7: `get_product_journey` returns exactly the records whose product id
equals the argument, in append order (the filtered chain is a sublist of the
chain); the journeys of two distinct products partition their interleaved
records exactly; and an unknown product id yields an empty sequence, not an
error. -/
theorem C7_journey (c : List Block) (X A B : String) (hAB : A ≠ B) :
    (∀ e ∈ get_product_journey c X, entryGet e "product_id" = some (.str X)) ∧
    ((c.filter (fun b => b.product_id == A || b.product_id == B)).map Block.to_dict).Perm
      (get_product_journey c A ++ get_product_journey c B) ∧
    (c.filter (fun b => b.product_id == X)).Sublist c ∧
    ((∀ b ∈ c, b.product_id ≠ X) → get_product_journey c X = []) := by
  refine ⟨?_, ?_, List.filter_sublist c, ?_⟩
  · intro e he
    simp only [get_product_journey, List.mem_map, List.mem_filter] at he
    obtain ⟨b, ⟨_, hpid⟩, rfl⟩ := he
    rw [to_dict_get_product_id]
    simp only [beq_iff_eq] at hpid
    rw [hpid]
  · simpa [get_product_journey, List.map_append] using
      (filter_or_perm c A B hAB).map Block.to_dict
  · intro hnone
    have hnil : c.filter (fun b => b.product_id == X) = [] := by
      rw [List.filter_eq_nil_iff]
      intro b hb
      simpa using hnone b hb
    simp [get_product_journey, hnil]

/-- Witness for C7 at `chain2`, an unknown product id and two distinct
products. -/
theorem C7_witness :
    ("PRD-1" : String) ≠ "PRD-2" ∧
    ((∀ e ∈ get_product_journey chain2 "unknown-id",
        entryGet e "product_id" = some (.str "unknown-id")) ∧
     ((chain2.filter (fun b => b.product_id == "PRD-1" || b.product_id == "PRD-2")).map
        Block.to_dict).Perm
       (get_product_journey chain2 "PRD-1" ++ get_product_journey chain2 "PRD-2") ∧
     (chain2.filter (fun b => b.product_id == "unknown-id")).Sublist chain2 ∧
     ((∀ b ∈ chain2, b.product_id ≠ "unknown-id") →
       get_product_journey chain2 "unknown-id" = [])) :=
  ⟨by decide, C7_journey chain2 "unknown-id" "PRD-1" "PRD-2" (by decide)⟩

/-- C8: the customer summary takes its origin-fixed fields (origin location,
creation-time product name) from the first record of the journey and its
current-state fields (status, location, payment method, details) from the
last record, first and last being determined strictly by sequence position;
rewriting every record's wall-clock timestamp leaves the summary unchanged;
a product with no records yields no summary rather than an error. -/
theorem C8_latest_state (c : List Block) (pid : String) (f : Block → String) :
    (get_product_journey c pid = [] → customer_summary c pid = none) ∧
    (∀ e es, get_product_journey c pid = e :: es →
      customer_summary c pid = some
        { product_id := pid
          product_name := Json.getD (getJsonD e "details" (jObj []))
            "product_name" (.str "Unknown")
          origin := getJsonD e "location" (.str "Unknown")
          final_location := getJsonD ((e :: es).getLast (List.cons_ne_nil e es))
            "location" (.str "Unknown")
          delivery_status := getJsonD ((e :: es).getLast (List.cons_ne_nil e es))
            "status" (.str "Unknown")
          final_payment := getJsonD ((e :: es).getLast (List.cons_ne_nil e es))
            "payment_method" (.str "Unknown")
          customer_details := getJsonD ((e :: es).getLast (List.cons_ne_nil e es))
            "details" (jObj []) }) ∧
    customer_summary (c.map (fun b => { b with timestamp := f b })) pid =
      customer_summary c pid := by
  refine ⟨?_, ?_, ?_⟩
  · intro h
    simp [customer_summary, h]
  · intro e es h
    simp [customer_summary, h, List.getLast?_eq_getLast (e :: es) (List.cons_ne_nil e es)]
  · have hfilter : (c.map (fun b => { b with timestamp := f b })).filter
        (fun b => b.product_id == pid) =
        (c.filter (fun b => b.product_id == pid)).map
          (fun b => { b with timestamp := f b }) := by
      rw [List.filter_map]
      rfl
    cases hfil : c.filter (fun b => b.product_id == pid) with
    | nil => simp [customer_summary, get_product_journey, hfilter, hfil]
    | cons x xs =>
        obtain ⟨y, hy⟩ : ∃ y, (x :: xs).getLast? = some y :=
          ⟨_, List.getLast?_eq_getLast _ (List.cons_ne_nil x xs)⟩
        simp only [customer_summary, get_product_journey, hfilter, hfil, List.map_map,
          head?_map', getLast?_map', hy, List.head?_cons, Option.map_some']
        rfl

/-- Witness for C8: the summary of `chain2` for PRD-1, concretely, and its
invariance under a timestamp rewrite. -/
theorem C8_witness :
    customer_summary chain2 "PRD-1" = some
      { product_id := "PRD-1", product_name := .str "Mango",
        origin := .str "Amritsar, Punjab", final_location := .str "Amritsar, Punjab",
        delivery_status := .str "Created", final_payment := .str "COD",
        customer_details := prdDetails } ∧
    customer_summary (chain2.map (fun b => { b with timestamp := "TT" })) "PRD-1" =
      customer_summary chain2 "PRD-1" :=
  ⟨by
    rw [(C8_latest_state chain2 "PRD-1" (fun _ => "TT")).2.1 (Block.to_dict b1) [] rfl]
    rfl,
   (C8_latest_state chain2 "PRD-1" (fun _ => "TT")).2.2⟩

/-- The walks `chainCheck` and `violationIdx` read the carried previous block only
through its stored hash. -/
theorem chainCheck_prev_hash_only (l : List Block) (p p' : Block) (i : Nat)
    (h : p.hash = p'.hash) :
    chainCheck p l i = chainCheck p' l i ∧ violationIdx p l i = violationIdx p' l i := by
  cases l with
  | nil => exact ⟨rfl, rfl⟩
  | cons x xs => simp [chainCheck, violationIdx, h]

/-- C9: `is_chain_valid` never recomputes or checks the digest of the record
at position 0: replacing the first block by any block with the same stored
hash leaves both the verdict and the first-violation position unchanged, and
likewise for a loaded chain whose first persisted record is altered in any
way that keeps its stored (truthy) hash. -/
theorem C9_genesis_unchecked (b0 b0' : Block) (rest : List Block)
    (hb : b0'.hash = b0.hash)
    (e0 e0' : List (String × Json)) (erest : List (List (String × Json)))
    (now hsh : String) (hne : hsh ≠ "")
    (h0 : entryGet e0 "hash" = some (.str hsh))
    (h0' : entryGet e0' "hash" = some (.str hsh)) :
    (is_chain_valid (b0' :: rest) = is_chain_valid (b0 :: rest) ∧
     first_violation (b0' :: rest) = first_violation (b0 :: rest)) ∧
    is_chain_valid (load_from_file (e0' :: erest) now) =
      is_chain_valid (load_from_file (e0 :: erest) now) := by
  constructor
  · exact ⟨(chainCheck_prev_hash_only rest b0' b0 1 hb).1,
           (chainCheck_prev_hash_only rest b0' b0 1 hb).2⟩
  · have hl : (loadBlock e0' now).hash = (loadBlock e0 now).hash := by
      simp [loadBlock, h0, h0', hne]
    simp only [load_from_file, List.map_cons]
    exact (chainCheck_prev_hash_only (erest.map (loadBlock · now))
      (loadBlock e0' now) (loadBlock e0 now) 1 hl).1

/-- Witness for C9: a genesis whose content fields are altered but whose
stored hash is kept does not change the verdict. -/
theorem C9_witness :
    ({ g0 with location := "Tampered", status := "Hacked" } : Block).hash = g0.hash ∧
    (("h0" : String) ≠ "") ∧
    entryGet [("hash", Json.str "h0"), ("location", Json.str "A")] "hash" =
      some (.str "h0") ∧
    entryGet [("hash", Json.str "h0"), ("location", Json.str "B")] "hash" =
      some (.str "h0") ∧
    is_chain_valid ({ g0 with location := "Tampered", status := "Hacked" } :: [b1]) =
      is_chain_valid (g0 :: [b1]) :=
  ⟨rfl, by decide, rfl, rfl,
   (C9_genesis_unchecked g0 { g0 with location := "Tampered", status := "Hacked" } [b1]
     rfl [("hash", Json.str "h0"), ("location", Json.str "A")]
     [("hash", Json.str "h0"), ("location", Json.str "B")] [] "T" "h0" (by decide)
     rfl rfl).1.1⟩

/-- C5 counterexample: the two implementation variants do not compute the
same digest for the same record — already their canonical serializations of
the genesis record differ (compact vs. default spaced separators), and the
resulting SHA-256 hex digests differ. -/
theorem C5_counterexample :
    g0.contentJson.dumpsCompact ≠ g0.contentJson.dumpsDefault ∧
    g0.compute_hash ≠ g0.compute_hash_v2 := by
  constructor <;> decide

/-- C5 (amended): within each single variant the digest is a pure function
of the ten content fields — records agreeing on all content fields have
equal digests, repeated recomputation is trivially stable, and a save/load
round-trip leaves the digest unchanged; but the two variants of this
repository compute different digests for the same record (compact vs.
default separators), so cross-variant reproducibility fails. -/
theorem C5_digest_deterministic (b b' : Block)
    (h : b.index = b'.index ∧ b.timestamp = b'.timestamp ∧
         b.product_id = b'.product_id ∧ b.actor_role = b'.actor_role ∧
         b.actor_name = b'.actor_name ∧ b.location = b'.location ∧
         b.status = b'.status ∧ b.payment_method = b'.payment_method ∧
         b.details = b'.details ∧ b.previous_hash = b'.previous_hash)
    (now : String) (hh : b.hash ≠ "") (hd : b.details ≠ Json.null) :
    b.compute_hash = b'.compute_hash ∧
    b.compute_hash_v2 = b'.compute_hash_v2 ∧
    (loadBlock (Block.to_dict b) now).compute_hash = b.compute_hash ∧
    (loadBlock (Block.to_dict b) now).compute_hash_v2 = b.compute_hash_v2 := by
  have hcj : b.contentJson = b'.contentJson := by
    obtain ⟨h1, h2, h3, h4, h5, h6, h7, h8, h9, h10⟩ := h
    simp [Block.contentJson, h1, h2, h3, h4, h5, h6, h7, h8, h9, h10]
  refine ⟨?_, ?_, ?_, ?_⟩
  · simp [Block.compute_hash, hcj]
  · simp [Block.compute_hash_v2, hcj]
  · rw [loadBlock_to_dict b hh hd]
  · rw [loadBlock_to_dict b hh hd]

/-- Witness for the amended C5: `b1` and `b1` with its stored hash replaced
agree on all content fields, hence on both digests, and the round-trip
preserves both digests. -/
theorem C5_witness :
    (b1.index = ({ b1 with hash := "x" } : Block).index ∧
     b1.timestamp = ({ b1 with hash := "x" } : Block).timestamp ∧
     b1.product_id = ({ b1 with hash := "x" } : Block).product_id ∧
     b1.actor_role = ({ b1 with hash := "x" } : Block).actor_role ∧
     b1.actor_name = ({ b1 with hash := "x" } : Block).actor_name ∧
     b1.location = ({ b1 with hash := "x" } : Block).location ∧
     b1.status = ({ b1 with hash := "x" } : Block).status ∧
     b1.payment_method = ({ b1 with hash := "x" } : Block).payment_method ∧
     b1.details = ({ b1 with hash := "x" } : Block).details ∧
     b1.previous_hash = ({ b1 with hash := "x" } : Block).previous_hash) ∧
    b1.hash ≠ "" ∧ b1.details ≠ Json.null ∧
    (b1.compute_hash = ({ b1 with hash := "x" } : Block).compute_hash ∧
     b1.compute_hash_v2 = ({ b1 with hash := "x" } : Block).compute_hash_v2 ∧
     (loadBlock (Block.to_dict b1) "T").compute_hash = b1.compute_hash ∧
     (loadBlock (Block.to_dict b1) "T").compute_hash_v2 = b1.compute_hash_v2) :=
  ⟨⟨rfl, rfl, rfl, rfl, rfl, rfl, rfl, rfl, rfl, rfl⟩,
   Block.init_hash_ne_empty _ _ _ _ _ _ _ _ _ _,
   show normDetails prdDetails ≠ Json.null from normDetails_ne_null _,
   C5_digest_deterministic b1 { b1 with hash := "x" }
     ⟨rfl, rfl, rfl, rfl, rfl, rfl, rfl, rfl, rfl, rfl⟩ "T"
     (Block.init_hash_ne_empty _ _ _ _ _ _ _ _ _ _)
     (show normDetails prdDetails ≠ Json.null from normDetails_ne_null _)⟩

/-! ### Tampering with the persisted representation (P5) -/

theorem violationIdx_set_fail (l : List Block) : ∀ (prev : Block) (j i0 : Nat) (b' : Block),
    linkedFrom prev l → ∀ (hj : j < l.length),
    (b'.previous_hash ≠ (if _hz : j = 0 then prev else l.get ⟨j - 1, by omega⟩).hash ∨
     b'.hash ≠ b'.compute_hash) →
    violationIdx prev (l.set j b') i0 = some (i0 + j) := by
  induction l with
  | nil =>
      intro prev j i0 b' _ hj
      simp at hj
  | cons x xs ih =>
      intro prev j i0 b' hl hj hfail
      obtain ⟨h1, h2, hl'⟩ := hl
      cases j with
      | zero =>
          by_cases hc : b'.previous_hash = prev.hash
          · have hh : b'.hash ≠ b'.compute_hash := by
              rcases hfail with h | h
              · simp at h
                exact absurd hc h
              · exact h
            simp [violationIdx, hc, hh]
          · simp [violationIdx, hc]
      | succ m =>
          have hj' : m < xs.length := by simpa using hj
          have hfail' : (b'.previous_hash ≠
              (if _hz : m = 0 then x else xs.get ⟨m - 1, by omega⟩).hash ∨
              b'.hash ≠ b'.compute_hash) := by
            rcases hfail with h | h
            · left
              cases m with
              | zero => simpa using h
              | succ k => simpa using h
            · right
              exact h
          have hrec := ih x m (i0 + 1) b' hl' hj' hfail'
          have harith : i0 + 1 + m = i0 + (m + 1) := by omega
          simp [violationIdx, h1, h2, hrec, harith]

theorem loadBlock_tamper_prev (b : Block) (hh : b.hash ≠ "") (hd : b.details ≠ Json.null)
    (p now : String) :
    loadBlock (setField (Block.to_dict b) "previous_hash" (.str p)) now =
      { b with previous_hash := p } := by
  obtain ⟨i, t, pid, ar, an, l, s, pm, d, ph, h⟩ := b
  simp only [ne_eq] at hh hd
  simp [setField, loadBlock, Block.to_dict, entryGet, getNatD, getStrD, getJsonD, hh,
    Block.init_eq, normDetails_eq d hd]

theorem loadBlock_tamper_hash (b : Block) (hd : b.details ≠ Json.null)
    (hsh now : String) (hne : hsh ≠ "") :
    loadBlock (setField (Block.to_dict b) "hash" (.str hsh)) now =
      { b with hash := hsh } := by
  obtain ⟨i, t, pid, ar, an, l, s, pm, d, ph, h⟩ := b
  simp only [ne_eq] at hd hne
  simp [setField, loadBlock, Block.to_dict, entryGet, getNatD, getStrD, getJsonD, hne,
    Block.init_eq, normDetails_eq d hd]

/-- Overwriting the stored hash with the empty string is repaired on load:
the loader recomputes the canonical digest of the (unchanged) content. -/
theorem loadBlock_tamper_hash_empty (b : Block) (hd : b.details ≠ Json.null)
    (now : String) :
    loadBlock (setField (Block.to_dict b) "hash" (.str "")) now =
      { b with hash := b.compute_hash } := by
  obtain ⟨i, t, pid, ar, an, l, s, pm, d, ph, h⟩ := b
  simp only [ne_eq] at hd
  simp [setField, loadBlock, Block.to_dict, entryGet, getNatD, getStrD, getJsonD,
    Block.init_eq, normDetails_eq d hd, Block.compute_hash, Block.contentJson]

theorem loadBlock_tamper_content (b : Block) (hh : b.hash ≠ "") (k : String)
    (hk : k ∈ ["index", "timestamp", "product_id", "actor_role", "actor_name",
      "location", "status", "payment_method", "details"]) (v : Json) (now : String) :
    (loadBlock (setField (Block.to_dict b) k v) now).previous_hash = b.previous_hash ∧
    (loadBlock (setField (Block.to_dict b) k v) now).hash = b.hash := by
  obtain ⟨i, t, pid, ar, an, l, s, pm, d, ph, h⟩ := b
  simp only [ne_eq] at hh
  simp only [List.mem_cons, List.mem_singleton, List.not_mem_nil, or_false] at hk
  rcases hk with rfl | rfl | rfl | rfl | rfl | rfl | rfl | rfl | rfl <;>
    simp [setField, loadBlock, Block.to_dict, entryGet, getNatD, getStrD, getJsonD, hh,
      Block.init_eq]

theorem load_set (d : List (List (String × Json))) (i : Nat) (e : List (String × Json))
    (now : String) :
    load_from_file (d.set i e) now = (load_from_file d now).set i (loadBlock e now) := by
  simp [load_from_file, List.map_set]

theorem save_getD (c : List Block) (i : Nat) (hi : i < c.length) :
    (save_to_file c).getD i [] = Block.to_dict (c.get ⟨i, hi⟩) := by
  rw [save_to_file, List.getD_eq_getElem _ _ (by simpa using hi)]
  simp

theorem load_save_built (c : List Block) (hc : Built c) (now : String) :
    load_from_file (save_to_file c) now = c := by
  obtain ⟨b0, rest, rfl, -, hmem⟩ := built_shape c hc
  exact load_save_id _ (fun b hb => ⟨(hmem b hb).1, (hmem b hb).2.1⟩) now

/-- Loading a persisted built ledger whose record at position `i` had one
field mutated yields the original chain with only position `i` replaced by
the reload of the mutated record. -/
theorem tampered_load (c : List Block) (hc : Built c) (i : Nat) (h2 : i < c.length)
    (k : String) (v : Json) (now : String) :
    load_from_file (tamperAt (save_to_file c) i k v) now =
      c.set i (loadBlock (setField (Block.to_dict (c.get ⟨i, h2⟩)) k v) now) := by
  rw [tamperAt, save_getD c i h2, load_set, load_save_built c hc now]

theorem built_mem_facts (c : List Block) (hc : Built c) (b : Block) (hb : b ∈ c) :
    b.hash ≠ "" ∧ b.details ≠ Json.null ∧ b.hash = b.compute_hash := by
  obtain ⟨b0, rest, rfl, -, hmem⟩ := built_shape c hc
  exact hmem b hb

theorem built_pairs (c : List Block) (hc : Built c) (i : Nat) (h0 : 0 < i)
    (hi : i < c.length) :
    (c.get ⟨i, hi⟩).previous_hash = (c.get ⟨i - 1, by omega⟩).hash ∧
    (c.get ⟨i, hi⟩).hash = (c.get ⟨i, hi⟩).compute_hash := by
  obtain ⟨b0, rest, rfl, hlink, -⟩ := built_shape c hc
  exact chain_pairs rest b0 hlink i h0 hi

/-- If the loaded replacement at position i ≥ 1 breaks the link check or the
digest check, verification reports the first violation exactly at i. -/
theorem tamper_violation (c : List Block) (hc : Built c) (i : Nat) (h1 : 1 ≤ i)
    (h2 : i < c.length) (b' : Block)
    (hfail : b'.previous_hash ≠ (c.get ⟨i - 1, by omega⟩).hash ∨
             b'.hash ≠ b'.compute_hash) :
    first_violation (c.set i b') = some i ∧ (is_chain_valid (c.set i b')).1 = false := by
  obtain ⟨b0, rest, rfl, hlink, -⟩ := built_shape c hc
  obtain ⟨j, rfl⟩ : ∃ j, i = j + 1 := ⟨i - 1, by omega⟩
  have hj : j < rest.length := by simpa using h2
  have hng : ((b0 :: rest).get ⟨j + 1 - 1, by omega⟩) =
      (if _hz : j = 0 then b0 else rest.get ⟨j - 1, by omega⟩) := by
    cases j with
    | zero => rfl
    | succ m => simp
  have hfail' : (b'.previous_hash ≠
      (if _hz : j = 0 then b0 else rest.get ⟨j - 1, by omega⟩).hash ∨
      b'.hash ≠ b'.compute_hash) := by
    rcases hfail with h | h
    · left
      rw [← hng]
      exact h
    · right
      exact h
  have hv := violationIdx_set_fail rest b0 j 1 b' hlink hj hfail'
  have hset : (b0 :: rest).set (j + 1) b' = b0 :: rest.set j b' := rfl
  have hfv : first_violation ((b0 :: rest).set (j + 1) b') = some (j + 1) := by
    rw [hset]
    show violationIdx b0 (rest.set j b') 1 = some (j + 1)
    rw [hv]
    congr 1
    omega
  exact ⟨hfv, is_chain_valid_false_of_violation _ _ hfv⟩

/-- C4 counterexample: mutating the single field `hash` of the non-head
record at position 1 to the empty string genuinely changes the persisted
representation, yet reloading silently repairs it (the loader recomputes the
digest for a falsy stored hash), the loaded chain is indistinguishable from
the original, and `verify_integrity` reports no violation at all. -/
theorem C4_counterexample :
    entryGet ((save_to_file chain2).getD 1 []) "hash" ≠ some (.str "") ∧
    load_from_file (tamperAt (save_to_file chain2) 1 "hash" (.str "")) "T" = chain2 ∧
    is_chain_valid (load_from_file (tamperAt (save_to_file chain2) 1 "hash" (.str "")) "T") =
      (true, "Chain is valid") ∧
    first_violation (load_from_file (tamperAt (save_to_file chain2) 1 "hash" (.str "")) "T") =
      none := by
  have hd : b1.details ≠ Json.null :=
    show normDetails prdDetails ≠ Json.null from normDetails_ne_null _
  have h1 : b1.hash = b1.compute_hash := Block.init_hash _ _ _ _ _ _ _ _ _ _
  have hload : load_from_file (tamperAt (save_to_file chain2) 1 "hash" (.str "")) "T" =
      chain2 := by
    rw [tampered_load chain2 built_chain2 1 (by decide) "hash" (.str "") "T"]
    have hb : loadBlock (setField (Block.to_dict b1) "hash" (.str "")) "T" = b1 := by
      rw [loadBlock_tamper_hash_empty b1 hd "T", ← h1]
    show chain2.set 1 (loadBlock (setField (Block.to_dict b1) "hash" (.str "")) "T") = chain2
    rw [hb]
    rfl
  refine ⟨?_, hload, ?_, ?_⟩
  · rw [save_getD chain2 1 (by decide)]
    show entryGet (Block.to_dict b1) "hash" ≠ some (.str "")
    rw [to_dict_get_hash]
    intro h
    simp only [Option.some.injEq, Json.str.injEq] at h
    exact Block.init_hash_ne_empty _ _ _ _ _ _ _ _ _ _ h
  · rw [hload]
    exact built_is_valid chain2 built_chain2
  · rw [hload]
    exact (first_violation_none_iff chain2).mpr (built_is_valid chain2 built_chain2)

/-- C4 (amended): for a ledger built through `append`, persisted, and with a
single field of the record at position i ≥ 1 mutated, reloading and
verifying reports the first violation exactly at position i whenever the
mutation is observable after load: a `previous_hash` replaced by a different
string (the link check fails at i), a stored `hash` replaced by a different
non-empty string (the digest check fails at i), or a content field replaced
so that the reloaded record's recomputed digest no longer equals its stored
hash (guaranteed in practice short of a SHA-256 collision).  The one escape
is mutating the stored hash to an empty/falsy value, which load silently
repairs (see the counterexample). -/
theorem C4_tamper_detection (c : List Block) (hc : Built c) (i : Nat) (h1 : 1 ≤ i)
    (h2 : i < c.length) (now : String) :
    (∀ p : String, p ≠ (c.get ⟨i, h2⟩).previous_hash →
      first_violation
        (load_from_file (tamperAt (save_to_file c) i "previous_hash" (.str p)) now) =
        some i ∧
      (is_chain_valid
        (load_from_file (tamperAt (save_to_file c) i "previous_hash" (.str p)) now)).1 =
        false) ∧
    (∀ hsh : String, hsh ≠ "" → hsh ≠ (c.get ⟨i, h2⟩).hash →
      first_violation
        (load_from_file (tamperAt (save_to_file c) i "hash" (.str hsh)) now) = some i ∧
      (is_chain_valid
        (load_from_file (tamperAt (save_to_file c) i "hash" (.str hsh)) now)).1 = false) ∧
    (∀ k ∈ ["index", "timestamp", "product_id", "actor_role", "actor_name",
        "location", "status", "payment_method", "details"], ∀ v : Json,
      (loadBlock (setField (Block.to_dict (c.get ⟨i, h2⟩)) k v) now).compute_hash ≠
        (c.get ⟨i, h2⟩).hash →
      first_violation (load_from_file (tamperAt (save_to_file c) i k v) now) = some i ∧
      (is_chain_valid (load_from_file (tamperAt (save_to_file c) i k v) now)).1 = false) := by
  have hci := built_mem_facts c hc (c.get ⟨i, h2⟩) (List.get_mem c i h2)
  have hpair := built_pairs c hc i (by omega) h2
  refine ⟨?_, ?_, ?_⟩
  · intro p hp
    rw [tampered_load c hc i h2,
        loadBlock_tamper_prev (c.get ⟨i, h2⟩) hci.1 hci.2.1 p now]
    apply tamper_violation c hc i h1 h2
    left
    show p ≠ _
    rw [← hpair.1]
    exact hp
  · intro hsh hne hdiff
    rw [tampered_load c hc i h2,
        loadBlock_tamper_hash (c.get ⟨i, h2⟩) hci.2.1 hsh now hne]
    apply tamper_violation c hc i h1 h2
    right
    show hsh ≠ _
    rw [compute_hash_set_hash, ← hci.2.2]
    exact hdiff
  · intro k hk v hdiff
    rw [tampered_load c hc i h2]
    apply tamper_violation c hc i h1 h2
    right
    rw [(loadBlock_tamper_content (c.get ⟨i, h2⟩) hci.1 k hk v now).2]
    intro heq
    exact hdiff heq.symm

/-- Witness for the amended C4: tampering the `previous_hash` of the record
at position 1 of the persisted `chain2` to a different string is reported at
position 1. -/
theorem C4_witness :
    Built chain2 ∧ 1 ≤ 1 ∧ 1 < chain2.length ∧
    ("bogus" ≠ (chain2.get ⟨1, by decide⟩).previous_hash) ∧
    (first_violation (load_from_file
        (tamperAt (save_to_file chain2) 1 "previous_hash" (.str "bogus")) "T") = some 1 ∧
     (is_chain_valid (load_from_file
        (tamperAt (save_to_file chain2) 1 "previous_hash" (.str "bogus")) "T")).1 = false) :=
  ⟨built_chain2, le_refl 1, by decide, by decide,
   (C4_tamper_detection chain2 built_chain2 1 (le_refl 1) (by decide) "T").1 "bogus"
     (by decide)⟩
